import Mathlib

/-!
Verification of the Performance Intelligence Layer of the
Autonomous-Trading-System repository: the trade-context recorder
(`core/performance/trade_logger.py`), the regime classifier
(`core/performance/regime.py`) and the performance analyzer
(`core/performance/analyzer.py`), shallowly embedded over the SQLite
store of `core/performance/database.py`.

Modelling conventions:
* Python floats are modelled as exact rationals (`ℚ`); `round(x, n)` is
  modelled as decimal rounding half-to-even (the Python rounding mode).
* SQLite rows of `trade_log` are modelled by `TradeRecord`; all exit
  columns are written together by `log_exit`, so they are bundled into a
  single `Option ExitInfo` (absent exactly when `exit_time IS NULL`).
* `float("inf")`, which `summary` can return as a profit factor, is
  modelled by the extended type `PFloat`.
* Python truthiness of optional string parameters (`if strategy:`) is
  `pyTruthy`: `None` and `""` are falsy.
* `str(trade_id)` applied to a caller-supplied opaque value is modelled
  by `pyStr` on `PyVal` (integers or strings).
-/

namespace ATS

/-- A Python value usable as a `trade_id`; `log_entry`/`log_exit` apply
`str(...)` to it before storing or matching. -/
inductive PyVal where
  | pint : ℤ → PyVal
  | pstr : String → PyVal
  deriving DecidableEq, Repr

/-- Models `str(v)` for a `PyVal`. -/
def pyStr : PyVal → String
  | .pint n => toString n
  | .pstr s => s

/-- Truthiness of an optional Python string: `None` and `""` are falsy
(`if strategy:` / `if regime:` in `analyzer.py`). -/
def pyTruthy : Option String → Bool
  | none => false
  | some s => s ≠ ""

/-- Round-half-to-even to an integer (the tie-breaking of the Python builtin round). -/
def roundHalfEven (x : ℚ) : ℤ :=
  if x - ⌊x⌋ < 1 / 2 then ⌊x⌋
  else if x - ⌊x⌋ > 1 / 2 then ⌊x⌋ + 1
  else if ⌊x⌋ % 2 = 0 then ⌊x⌋ else ⌊x⌋ + 1

/-- The Python builtin `round(x, n)`, on exact rationals. -/
def pyRound (x : ℚ) (n : ℕ) : ℚ :=
  (roundHalfEven (x * 10 ^ n) : ℚ) / 10 ^ n

/-- A Python float that may be `float("inf")` (used for profit factors). -/
inductive PFloat where
  | val : ℚ → PFloat
  | inf : PFloat
  deriving DecidableEq, Repr

/-- Rounding of a possibly infinite float: `round(float("inf"), 4)` is `inf` in Python. -/
def pfRound4 : PFloat → PFloat
  | .val q => .val (pyRound q 4)
  | .inf => .inf

/-- The indicator snapshot dict `{rsi, tema, bb_percent, bb_width, adx}`;
any key may be absent (`indicators.get(...)` yields `None`). -/
structure IndSnapshot where
  rsi : Option ℚ
  tema : Option ℚ
  bb_percent : Option ℚ
  bb_width : Option ℚ
  adx : Option ℚ
  deriving DecidableEq, Repr

/-- The regime dict `{volatility, trend, combined}` produced by
`classify_regime`; `regime.get(...)` may yield `None`. -/
structure RegimeDict where
  volatility : Option String
  trend : Option String
  combined : Option String
  deriving DecidableEq, Repr

/-- The exit columns of a `trade_log` row, all written by the single
`UPDATE` in `log_exit` (hence `duration_minutes` is always supplied). -/
structure ExitInfo where
  exit_time : String
  exit_price : ℚ
  exit_reason : String
  indicators : IndSnapshot
  regime : RegimeDict
  pnl_absolute : ℚ
  pnl_percent : ℚ
  duration_minutes : ℚ
  regime_changed : Bool
  deriving DecidableEq, Repr

/-- One row of the `trade_log` table. `id` is the `AUTOINCREMENT`
primary key; `exitInfo` is `none` exactly when `exit_time IS NULL`. -/
structure TradeRecord where
  id : ℕ
  trade_id : String
  pair : String
  strategy : String
  entry_time : String
  entry_price : ℚ
  entry_indicators : IndSnapshot
  entry_volatility_regime : Option String
  entry_trend_regime : Option String
  entry_regime : Option String
  exitInfo : Option ExitInfo
  deriving DecidableEq, Repr

/-- One row of the `regime_snapshots` table. -/
structure RegimeSnapshotRow where
  timestamp : String
  pair : String
  volatility_regime : Option String
  trend_regime : Option String
  regime : Option String
  bb_width : Option ℚ
  adx : Option ℚ
  rsi : Option ℚ
  deriving DecidableEq, Repr

/-- The performance database: the two tables, plus the next
`AUTOINCREMENT` value for `trade_log`. `records` is kept in insertion
order. -/
structure DBState where
  records : List TradeRecord
  snapshots : List RegimeSnapshotRow
  nextId : ℕ
  deriving DecidableEq, Repr

/-- A freshly created database (`_ensure_tables` on an empty file). -/
def dbInit : DBState := { records := [], snapshots := [], nextId := 1 }

/-! ## Regime classifier (`core/performance/regime.py`) -/

/-- Models `np.percentile(xs, p)` with the default linear interpolation:
sort ascending, take the fractional rank `p/100 * (n-1)` and
interpolate between its floor and the next element. -/
def percentile (xs : List ℚ) (p : ℚ) : ℚ :=
  let sorted := xs.mergeSort (fun a b => a ≤ b)
  let n := sorted.length
  let h := p / 100 * ((n : ℚ) - 1)
  let i := (⌊h⌋).toNat
  let lo := sorted.getD i 0
  let hi := sorted.getD (i + 1) lo
  lo + (h - (⌊h⌋ : ℚ)) * (hi - lo)

/-- Function `classify_volatility(bb_width, bb_width_history, low_percentile,
high_percentile)`: "unknown" when the history has fewer than two
points (the guard `not bb_width_history or len(...) < 2` of the source),
otherwise buckets the current width against the two percentile
thresholds of the history. -/
def classify_volatility (bb_width : ℚ) (bb_width_history : List ℚ)
    (low_percentile : ℚ := 25) (high_percentile : ℚ := 75) : String :=
  if bb_width_history = [] ∨ bb_width_history.length < 2 then "unknown"
  else
    let low_threshold := percentile bb_width_history low_percentile
    let high_threshold := percentile bb_width_history high_percentile
    if bb_width < low_threshold then "low"
    else if bb_width > high_threshold then "high"
    else "medium"

/-- The `adx` argument of `classify_trend`: Python `None`, a NaN float,
or an actual numeric value. -/
inductive AdxValue where
  | absent : AdxValue
  | nan : AdxValue
  | val : ℚ → AdxValue
  deriving DecidableEq, Repr

/-- Function `classify_trend(adx)`: "unknown" for `None`/NaN, then the ADX
thresholds `<20` ranging, `<30` weak trend, else strong trend. -/
def classify_trend : AdxValue → String
  | .absent => "unknown"
  | .nan => "unknown"
  | .val adx =>
    if adx < 20 then "ranging"
    else if adx < 30 then "weak_trend"
    else "strong_trend"

/-- Function `classify_regime(bb_width, bb_width_history, adx)`. -/
def classify_regime (bb_width : ℚ) (bb_width_history : List ℚ)
    (adx : AdxValue) : RegimeDict :=
  let vol := classify_volatility bb_width bb_width_history
  let trend := classify_trend adx
  { volatility := some vol, trend := some trend,
    combined := some (vol ++ "_" ++ trend) }

/-! ## Trade context recorder (`core/performance/trade_logger.py`)

Each method of `TradeLogger` becomes a function from the database state
to the return value of the method paired with the new state. -/

/-- The row `SELECT ... WHERE trade_id = ? ORDER BY id DESC LIMIT 1`
returns: the matching record with the largest `id` (later insertion
wins ties). -/
def selectLatest (l : List TradeRecord) : Option TradeRecord :=
  l.foldl
    (fun acc r =>
      match acc with
      | none => some r
      | some a => if a.id ≤ r.id then some r else some a)
    none

/-- Method `TradeLogger.log_entry`: inserts one open row capturing the entry
context and returns the `lastrowid`. -/
def log_entry (s : DBState) (trade_id : PyVal) (pair strategy : String)
    (entry_time : String) (entry_price : ℚ) (indicators : IndSnapshot)
    (regime : RegimeDict) : ℕ × DBState :=
  let r : TradeRecord :=
    { id := s.nextId
      trade_id := pyStr trade_id
      pair := pair
      strategy := strategy
      entry_time := entry_time
      entry_price := entry_price
      entry_indicators := indicators
      entry_volatility_regime := regime.volatility
      entry_trend_regime := regime.trend
      entry_regime := regime.combined
      exitInfo := none }
  (s.nextId,
   { s with records := s.records ++ [r], nextId := s.nextId + 1 })

/-- The exit payload the `UPDATE` of `log_exit` writes. -/
def mkExitInfo (exit_time : String) (exit_price : ℚ) (exit_reason : String)
    (indicators : IndSnapshot) (regime : RegimeDict)
    (entry_price duration_minutes : ℚ) (regime_changed : Bool) : ExitInfo :=
  { exit_time := exit_time
    exit_price := exit_price
    exit_reason := exit_reason
    indicators := indicators
    regime := regime
    pnl_absolute := exit_price - entry_price
    pnl_percent :=
      if entry_price ≠ 0 then (exit_price - entry_price) / entry_price * 100
      else 0
    duration_minutes := duration_minutes
    regime_changed := regime_changed }

/-- Method `TradeLogger.log_exit`: computes the P&L, looks up the latest row
with the given `trade_id` (`ORDER BY id DESC LIMIT 1`, with no filter
on openness); if none exists returns `False`, otherwise compares that
row field `entry_regime` with the supplied `combined` label and runs
`UPDATE ... WHERE trade_id = ? AND exit_time IS NULL`, which fills the
exit columns of every still-open row with that id, and returns `True`. -/
def log_exit (s : DBState) (trade_id : PyVal) (exit_time : String)
    (exit_price : ℚ) (exit_reason : String) (indicators : IndSnapshot)
    (regime : RegimeDict) (entry_price duration_minutes : ℚ) :
    Bool × DBState :=
  let tid := pyStr trade_id
  match selectLatest (s.records.filter (fun r => r.trade_id = tid)) with
  | none => (false, s)
  | some row =>
    let regime_changed := row.entry_regime ≠ regime.combined
    let e := mkExitInfo exit_time exit_price exit_reason indicators regime
      entry_price duration_minutes regime_changed
    (true,
     { s with
         records := s.records.map (fun r =>
           if r.trade_id = tid ∧ r.exitInfo = none
           then { r with exitInfo := some e }
           else r) })

/-- Method `TradeLogger.log_regime_snapshot`: unconditional append to
`regime_snapshots`. -/
def log_regime_snapshot (s : DBState) (pair timestamp : String)
    (regime : RegimeDict) (indicators : IndSnapshot) : DBState :=
  let row : RegimeSnapshotRow :=
    { timestamp := timestamp
      pair := pair
      volatility_regime := regime.volatility
      trend_regime := regime.trend
      regime := regime.combined
      bb_width := indicators.bb_width
      adx := indicators.adx
      rsi := indicators.rsi }
  { s with snapshots := s.snapshots ++ [row] }

/-- Method `TradeLogger.find_open_trade`: the open row for the pair with the
greatest `entry_time` (string order), if any. -/
def find_open_trade (s : DBState) (pair : String) : Option String :=
  let opens := s.records.filter
    (fun r => r.pair = pair ∧ r.exitInfo = none)
  (opens.foldl
    (fun acc r =>
      match acc with
      | none => some r
      | some a => if a.entry_time ≤ r.entry_time then some r else some a)
    none).map (·.trade_id)

/-- One call to the trade-context recorder. -/
inductive LogOp where
  | entry (trade_id : PyVal) (pair strategy entry_time : String)
      (entry_price : ℚ) (indicators : IndSnapshot) (regime : RegimeDict)
  | close (trade_id : PyVal) (exit_time : String) (exit_price : ℚ)
      (exit_reason : String) (indicators : IndSnapshot)
      (regime : RegimeDict) (entry_price duration_minutes : ℚ)
  | snap (pair timestamp : String) (regime : RegimeDict)
      (indicators : IndSnapshot)

/-- Apply one recorder call to the store, discarding the return value. -/
def applyOp (s : DBState) : LogOp → DBState
  | .entry tid p st et ep ind rg => (log_entry s tid p st et ep ind rg).2
  | .close tid et xp xr ind rg ep dur =>
      (log_exit s tid et xp xr ind rg ep dur).2
  | .snap p t rg ind => log_regime_snapshot s p t rg ind

/-- Apply a sequence of recorder calls, left to right. -/
def applyOps (s : DBState) (ops : List LogOp) : DBState :=
  ops.foldl applyOp s

/-- The entry columns of a row, as one tuple (used to state that no
operation ever rewrites them). -/
def entryView (r : TradeRecord) :=
  (r.id, r.trade_id, r.pair, r.strategy, r.entry_time, r.entry_price,
   r.entry_indicators, r.entry_volatility_regime, r.entry_trend_regime,
   r.entry_regime)

/-! ## Performance analyzer (`core/performance/analyzer.py`)

Read-only queries over the same `DBState`. -/

/-- The summary dict returned by `PerformanceAnalyzer.summary`. -/
structure Summary where
  total_trades : ℕ
  wins : ℕ
  losses : ℕ
  win_rate : ℚ
  avg_win_pct : ℚ
  avg_loss_pct : ℚ
  expectancy_pct : ℚ
  profit_factor : PFloat
  avg_duration_min : ℚ
  deriving DecidableEq, Repr

/-- The rows selected by `summary`: closed trades, optionally filtered
by exact strategy and entry regime (a filter argument that is `None` or
`""` is skipped, per Python truthiness). -/
def summaryRows (s : DBState) (strategy regime : Option String) :
    List TradeRecord :=
  s.records.filter (fun r =>
    r.exitInfo.isSome &&
    (!pyTruthy strategy || r.strategy == strategy.getD "") &&
    (!pyTruthy regime || r.entry_regime == some (regime.getD "")))

/-- The `pnl_percent` column of a list of (closed) rows. -/
def rowPnls (rows : List TradeRecord) : List ℚ :=
  rows.filterMap (fun r => r.exitInfo.map (·.pnl_percent))

/-- The `duration_minutes` column of a list of (closed) rows. The
source drops `NULL` durations, but every closed row was written by
`log_exit`, which always supplies `duration_minutes`, so none is
dropped here. -/
def rowDurations (rows : List TradeRecord) : List ℚ :=
  rows.filterMap (fun r => r.exitInfo.map (·.duration_minutes))

/-- Ratio `gross_wins / abs(gross_losses)` with the fallbacks of the source:
`inf` when there are no (nonzero) gross losses but positive gross wins,
`0.0` when neither. -/
def profitFactorOf (gross_wins gross_losses : ℚ) : PFloat :=
  if gross_losses > 0 then .val (gross_wins / gross_losses)
  else if gross_wins > 0 then .inf
  else .val 0

/-- Method `PerformanceAnalyzer.summary(strategy, regime)`. -/
def summary (s : DBState) (strategy : Option String := none)
    (regime : Option String := none) : Summary :=
  let rows := summaryRows s strategy regime
  if rows = [] then
    { total_trades := 0, wins := 0, losses := 0, win_rate := 0
      avg_win_pct := 0, avg_loss_pct := 0, expectancy_pct := 0
      profit_factor := .val 0, avg_duration_min := 0 }
  else
    let pnls := rowPnls rows
    let durations := rowDurations rows
    let wins := pnls.filter (fun p => 0 < p)
    let losses := pnls.filter (fun p => p ≤ 0)
    let total := pnls.length
    let win_count := wins.length
    let loss_count := losses.length
    let win_rate := if 0 < total then (win_count : ℚ) / total else 0
    let avg_win := if wins ≠ [] then wins.sum / wins.length else 0
    let avg_loss := if losses ≠ [] then losses.sum / losses.length else 0
    let expectancy := win_rate * avg_win + (1 - win_rate) * avg_loss
    let gross_wins := wins.sum
    let gross_losses := |losses.sum|
    let profit_factor := profitFactorOf gross_wins gross_losses
    let avg_duration :=
      if durations ≠ [] then durations.sum / durations.length else 0
    { total_trades := total
      wins := win_count
      losses := loss_count
      win_rate := pyRound win_rate 4
      avg_win_pct := pyRound avg_win 4
      avg_loss_pct := pyRound avg_loss 4
      expectancy_pct := pyRound expectancy 4
      profit_factor := pfRound4 profit_factor
      avg_duration_min := pyRound avg_duration 2 }

/-- Method `PerformanceAnalyzer.by_regime(strategy)`: the distinct non-null
entry regimes among the matching closed trades, each mapped to the
regime-filtered `summary`. -/
def by_regime (s : DBState) (strategy : Option String := none) :
    List (String × Summary) :=
  let rows := s.records.filter (fun r =>
    r.exitInfo.isSome && r.entry_regime.isSome &&
    (!pyTruthy strategy || r.strategy == strategy.getD ""))
  let keys := (rows.filterMap (fun r => r.entry_regime)).dedup
  keys.map (fun k => (k, summary s strategy (some k)))

/-- The summary dict of `PerformanceAnalyzer._compute_summary`. -/
structure MiniSummary where
  total_trades : ℕ
  win_rate : ℚ
  avg_win_pct : ℚ
  avg_loss_pct : ℚ
  expectancy_pct : ℚ
  profit_factor : PFloat
  deriving DecidableEq, Repr

/-- Static method `PerformanceAnalyzer._compute_summary(pnls)`. -/
def compute_summary (pnls : List ℚ) : MiniSummary :=
  if pnls = [] then
    { total_trades := 0, win_rate := 0, avg_win_pct := 0
      avg_loss_pct := 0, expectancy_pct := 0, profit_factor := .val 0 }
  else
    let wins := pnls.filter (fun p => 0 < p)
    let losses := pnls.filter (fun p => p ≤ 0)
    let total := pnls.length
    let win_rate := if total ≠ 0 then (wins.length : ℚ) / total else 0
    let avg_win := if wins ≠ [] then wins.sum / wins.length else 0
    let avg_loss := if losses ≠ [] then losses.sum / losses.length else 0
    let expectancy := win_rate * avg_win + (1 - win_rate) * avg_loss
    let profit_factor := profitFactorOf wins.sum |losses.sum|
    { total_trades := total
      win_rate := pyRound win_rate 4
      avg_win_pct := pyRound avg_win 4
      avg_loss_pct := pyRound avg_loss 4
      expectancy_pct := pyRound expectancy 4
      profit_factor := pfRound4 profit_factor }

/-- Comparison `pf < c` on Python floats (`inf < c` is false). -/
def PFloat.ltQ : PFloat → ℚ → Bool
  | .val q, c => q < c
  | .inf, _ => false

/-- Comparison `pf >= c` on Python floats (`inf >= c` is true). -/
def PFloat.geQ : PFloat → ℚ → Bool
  | .val q, c => c ≤ q
  | .inf, _ => true

/-- Fixed-point formatting `f"{x:.1f}"` for a nonnegative rational (used only in the
decay reason strings). -/
def fmt1 (x : ℚ) : String :=
  let t := roundHalfEven (x * 10)
  toString (t / 10) ++ "." ++ toString (t % 10)

/-- The dict returned by `PerformanceAnalyzer.detect_decay`: either the
two insufficient-data shapes or the full analysis shape. -/
inductive DecayReport where
  | insufficient (total_closed_trades needed : ℕ) (recommendation : String)
  | analysis (total_closed_trades : ℕ) (recent baseline : MiniSummary)
      (win_rate_delta expectancy_delta : ℚ) (decay_detected : Bool)
      (recommendation : String)
  deriving DecidableEq, Repr

/-- The `has_enough_data` field of the returned dict. -/
def DecayReport.has_enough_data : DecayReport → Bool
  | .insufficient .. => false
  | .analysis .. => true

/-- The first insufficient-data recommendation of `detect_decay`. -/
def msgNeedAnalysis (recent_window : ℕ) : String :=
  "Need at least " ++ toString recent_window ++
    " closed trades for analysis."

/-- The second insufficient-data recommendation of `detect_decay`. -/
def msgNeedComparison (total_needed : ℕ) : String :=
  "Need at least " ++ toString total_needed ++
    " closed trades for decay comparison."

/-- The rows of `detect_decay`: closed trades of the strategy ordered
by `exit_time` descending, projected to `pnl_percent`. -/
def closedPnlsByExitDesc (s : DBState) (strategy : String) : List ℚ :=
  let rows := (s.records.filter (fun r =>
      r.strategy = strategy ∧ r.exitInfo.isSome)).mergeSort
    (fun a b =>
      ((b.exitInfo.map (·.exit_time)).getD "") ≤
        ((a.exitInfo.map (·.exit_time)).getD ""))
  rowPnls rows

/-- Method `PerformanceAnalyzer.detect_decay(strategy, recent_window,
baseline_window)`. The window arguments are Python ints used only as
slice bounds; they are modelled as naturals (the claims about this
function quantify over positive windows only). -/
def detect_decay (s : DBState) (strategy : String)
    (recent_window : ℕ := 20) (baseline_window : ℕ := 50) : DecayReport :=
  let pnls := closedPnlsByExitDesc s strategy
  let total_needed := recent_window + baseline_window
  if pnls.length < recent_window then
    .insufficient pnls.length total_needed (msgNeedAnalysis recent_window)
  else
    let recent_pnls := pnls.take recent_window
    let baseline_pnls := (pnls.drop recent_window).take baseline_window
    if baseline_pnls = [] then
      .insufficient pnls.length total_needed (msgNeedComparison total_needed)
    else
      let recent_summary := compute_summary recent_pnls
      let baseline_summary := compute_summary baseline_pnls
      let wr_delta := recent_summary.win_rate - baseline_summary.win_rate
      let exp_delta :=
        recent_summary.expectancy_pct - baseline_summary.expectancy_pct
      let cond1 := wr_delta < -(15 / 100 : ℚ)
      let cond2 := baseline_summary.expectancy_pct > 0 ∧
        recent_summary.expectancy_pct < 0
      let cond3 := recent_summary.profit_factor.ltQ 1 ∧
        baseline_summary.profit_factor.geQ 1
      let decay_detected := cond1 ∨ cond2 ∨ cond3
      let reasons :=
        (if cond1 then ["Win rate dropped " ++ fmt1 (|wr_delta| * 100) ++ "%"]
         else []) ++
        (if cond2 then ["Expectancy turned negative"] else []) ++
        (if cond3 then ["Profit factor dropped below 1.0"] else [])
      let recommendation :=
        if decay_detected then
          "DECAY DETECTED: " ++ String.intercalate "; " reasons ++
            ". Consider reducing position size or pausing strategy."
        else
          "No significant decay detected. Strategy performance is stable."
      .analysis pnls.length recent_summary baseline_summary
        (pyRound wr_delta 4) (pyRound exp_delta 4)
        decay_detected recommendation

/-- Method `PerformanceAnalyzer.recent_trades(n, strategy)`. -/
def recent_trades (s : DBState) (n : ℕ := 20)
    (strategy : Option String := none) : List TradeRecord :=
  ((s.records.filter (fun r =>
      r.exitInfo.isSome &&
      (!pyTruthy strategy || r.strategy == strategy.getD ""))).mergeSort
    (fun a b =>
      ((b.exitInfo.map (·.exit_time)).getD "") ≤
        ((a.exitInfo.map (·.exit_time)).getD ""))).take n

/-! ## Helper lemmas -/

/-- The fold step of `selectLatest`, named for the lemmas below. -/
def selStep (acc : Option TradeRecord) (r : TradeRecord) :
    Option TradeRecord :=
  match acc with
  | none => some r
  | some a => if a.id ≤ r.id then some r else some a

theorem selectLatest_eq_foldl (l : List TradeRecord) :
    selectLatest l = l.foldl selStep none := rfl

theorem selStep_foldl_some (l : List TradeRecord) (a : TradeRecord) :
    ∃ r, l.foldl selStep (some a) = some r ∧ (r = a ∨ r ∈ l) ∧
      a.id ≤ r.id ∧ ∀ b ∈ l, b.id ≤ r.id := by
  induction l generalizing a with
  | nil => exact ⟨a, rfl, Or.inl rfl, le_refl _, by simp⟩
  | cons x xs ih =>
    by_cases hx : a.id ≤ x.id
    · obtain ⟨r, hr, hmem, hle, hall⟩ := ih x
      refine ⟨r, ?_, ?_, le_trans hx hle, ?_⟩
      · simpa [selStep, hx] using hr
      · rcases hmem with h | h
        · exact Or.inr (by simp [h])
        · exact Or.inr (by simp [h])
      · intro b hb
        rcases List.mem_cons.mp hb with rfl | hb
        · exact hle
        · exact hall b hb
    · obtain ⟨r, hr, hmem, hle, hall⟩ := ih a
      refine ⟨r, ?_, ?_, hle, ?_⟩
      · simpa [selStep, hx] using hr
      · rcases hmem with h | h
        · exact Or.inl h
        · exact Or.inr (by simp [h])
      · intro b hb
        rcases List.mem_cons.mp hb with rfl | hb
        · exact le_trans (le_of_not_le hx) hle
        · exact hall b hb

/-- A nonempty list has a selected row, it is a member, and its `id`
is maximal. -/
theorem selectLatest_spec (l : List TradeRecord) (h : l ≠ []) :
    ∃ r, selectLatest l = some r ∧ r ∈ l ∧ ∀ b ∈ l, b.id ≤ r.id := by
  cases l with
  | nil => exact absurd rfl h
  | cons x xs =>
    obtain ⟨r, hr, hmem, hle, hall⟩ := selStep_foldl_some xs x
    refine ⟨r, ?_, ?_, ?_⟩
    · simpa [selectLatest_eq_foldl, List.foldl_cons, selStep] using hr
    · rcases hmem with h | h
      · simp [h]
      · simp [h]
    · intro b hb
      rcases List.mem_cons.mp hb with rfl | hb
      · exact hle
      · exact hall b hb

theorem selectLatest_nil_iff (l : List TradeRecord) :
    selectLatest l = none ↔ l = [] := by
  constructor
  · intro h
    by_contra hne
    obtain ⟨r, hr, -, -⟩ := selectLatest_spec l hne
    rw [h] at hr
    exact Option.noConfusion hr
  · intro h
    subst h
    rfl

/-- A total `filterMap` keeps the length. -/
theorem length_filterMap_of_isSome {α β : Type _} (f : α → Option β)
    (l : List α) (h : ∀ x ∈ l, (f x).isSome) :
    (l.filterMap f).length = l.length := by
  induction l with
  | nil => rfl
  | cons x xs ih =>
    have hx := h x (List.mem_cons_self x xs)
    obtain ⟨b, hb⟩ := Option.isSome_iff_exists.mp hx
    rw [List.filterMap_cons, hb]
    simp [ih (fun y hy => h y (List.mem_cons_of_mem x hy))]

/-- Reduction of `log_exit` when no row carries the trade id. -/
theorem log_exit_none_case (s : DBState) (tid : PyVal)
    (et : String) (xp : ℚ) (xr : String) (ind : IndSnapshot)
    (rg : RegimeDict) (ep dur : ℚ)
    (h : s.records.filter (fun r => r.trade_id = pyStr tid) = []) :
    log_exit s tid et xp xr ind rg ep dur = (false, s) := by
  simp only [log_exit]
  rw [h]
  rfl

/-- Reduction of `log_exit` when the id lookup returns a row. -/
theorem log_exit_some_case (s : DBState) (tid : PyVal)
    (et : String) (xp : ℚ) (xr : String) (ind : IndSnapshot)
    (rg : RegimeDict) (ep dur : ℚ) (row : TradeRecord)
    (hrow : selectLatest (s.records.filter
      (fun r => r.trade_id = pyStr tid)) = some row) :
    log_exit s tid et xp xr ind rg ep dur =
      (true, { s with records := s.records.map (fun r =>
        if r.trade_id = pyStr tid ∧ r.exitInfo = none
        then { r with exitInfo := some (mkExitInfo et xp xr ind rg ep dur
          (decide (row.entry_regime ≠ rg.combined))) }
        else r) }) := by
  simp only [log_exit]
  rw [hrow]

/-! ## Concrete stores used by counterexamples and witnesses -/

/-- A sample indicator snapshot. -/
def ind0 : IndSnapshot :=
  { rsi := some 45, tema := some 100, bb_percent := some (1 / 2),
    bb_width := some (1 / 25), adx := some 25 }

/-- The regime `low_ranging`. -/
def rgA : RegimeDict :=
  { volatility := some "low", trend := some "ranging",
    combined := some "low_ranging" }

/-- The regime `high_strong_trend`. -/
def rgB : RegimeDict :=
  { volatility := some "high", trend := some "strong_trend",
    combined := some "high_strong_trend" }

/-- A regime dict with every key absent. -/
def rgNone : RegimeDict := { volatility := none, trend := none, combined := none }

/-- Log one complete trade (entry then exit) on top of a store. -/
def logRound (s : DBState) (tid : PyVal) (strategy : String)
    (entry_time : String) (exit_time : String) (entry_price exit_price : ℚ)
    (rg : RegimeDict) : DBState :=
  let s1 := (log_entry s tid "BTC/USDT" strategy entry_time entry_price
    ind0 rg).2
  (log_exit s1 tid exit_time exit_price "roi" ind0 rg entry_price 60).2

/-- Four closed trades with P&L percentages +4, +2, +1, −5; the first
two entered in regime `low_ranging`, the last two in
`high_strong_trend`. -/
def demoFour : DBState :=
  logRound (logRound (logRound (logRound dbInit
    (.pstr "1") "strat" "t1" "t2" 100 104 rgA)
    (.pstr "2") "strat" "t3" "t4" 100 102 rgA)
    (.pstr "3") "strat" "t5" "t6" 100 101 rgB)
    (.pstr "4") "strat" "t7" "t8" 100 95 rgB

/-- A store holding exactly one open record, for trade id "1". -/
def demoOneOpen : DBState :=
  (log_entry dbInit (.pstr "1") "BTC/USDT" "strat" "t1" 100 ind0 rgA).2

/-- A store whose only record for trade id "9" is already closed. -/
def cexClosedOnly : DBState :=
  logRound dbInit (.pstr "9") "strat" "t1" "t2" 100 105 rgA

/-- A store with two open records sharing the trade id "7". -/
def cexTwoOpen : DBState :=
  (log_entry (log_entry dbInit (.pstr "7") "BTC/USDT" "strat" "t1" 100
    ind0 rgA).2 (.pstr "7") "BTC/USDT" "strat" "t2" 100 ind0 rgB).2

/-- A store with exactly two closed trades of strategy "strat". -/
def cexTwoClosed : DBState :=
  logRound (logRound dbInit (.pstr "1") "strat" "t1" "t2" 100 104 rgA)
    (.pstr "2") "strat" "t3" "t4" 100 95 rgA

/-- A store with one winning trade (+5%) and one zero-P&L trade. -/
def cexWinZero : DBState :=
  logRound (logRound dbInit (.pstr "a") "strat" "t1" "t2" 100 105 rgA)
    (.pstr "b") "strat" "t3" "t4" 100 100 rgA

/-- A store with one closed trade whose entry regime is `NULL`. -/
def cexNullRegime : DBState :=
  logRound dbInit (.pstr "n") "strat" "t1" "t2" 100 105 rgNone

end ATS

section ClaimProofs

/-! Rational arithmetic and `mergeSort` are sealed against unfolding by
default; the concrete stores below are evaluated inside this section,
where they are restored to ordinary reducibility so that `decide` can
compute with them. -/

attribute [local semireducible] Rat.add Rat.sub Rat.mul Rat.inv Rat.ofScientific

unseal List.merge List.mergeSort String.ltb

/-! ## Claim theorems: regime classifier -/

/-- C7: `classify_trend` maps `adx < 20` to "ranging", `20 ≤ adx < 30`
to "weak_trend" (so 20 itself is weak, not ranging), `adx ≥ 30` to
"strong_trend" (so 30 itself is strong), and an absent or NaN input to
"unknown". -/
theorem classify_trend_thresholds : ∀ adx : ℚ,
    (adx < 20 → ATS.classify_trend (.val adx) = "ranging") ∧
    (20 ≤ adx → adx < 30 → ATS.classify_trend (.val adx) = "weak_trend") ∧
    (30 ≤ adx → ATS.classify_trend (.val adx) = "strong_trend") ∧
    ATS.classify_trend .absent = "unknown" ∧
    ATS.classify_trend .nan = "unknown" := by
  intro adx
  refine ⟨fun h => ?_, fun h1 h2 => ?_, fun h => ?_, rfl, rfl⟩
  · simp [ATS.classify_trend, h]
  · simp [ATS.classify_trend, h2, not_lt.mpr h1]
  · have h20 : (20 : ℚ) ≤ adx := le_trans (by norm_num) h
    simp [ATS.classify_trend, not_lt.mpr h, not_lt.mpr h20]

/-- Witness for C7 at adx = 10, 20, 30. -/
theorem classify_trend_thresholds_witness :
    ATS.classify_trend (.val 10) = "ranging" ∧
    ATS.classify_trend (.val 20) = "weak_trend" ∧
    ATS.classify_trend (.val 30) = "strong_trend" ∧
    ATS.classify_trend .absent = "unknown" :=
  ⟨(classify_trend_thresholds 10).1 (by norm_num),
   (classify_trend_thresholds 20).2.1 le_rfl (by norm_num),
   (classify_trend_thresholds 30).2.2.1 le_rfl,
   (classify_trend_thresholds 0).2.2.2.1⟩

/-- C8: with fewer than two history observations `classify_volatility`
returns "unknown", whatever the current value and the percentile
parameters. -/
theorem classify_volatility_short_history (cur : ℚ) (hist : List ℚ)
    (lp hp : ℚ) (h : hist.length < 2) :
    ATS.classify_volatility cur hist lp hp = "unknown" := by
  unfold ATS.classify_volatility
  rw [if_pos (Or.inr h)]

/-- Witness for C8: empty history and one-point history. -/
theorem classify_volatility_short_history_witness :
    ATS.classify_volatility 3 [] 25 75 = "unknown" ∧
    ATS.classify_volatility 3 [(1 : ℚ)] 10 90 = "unknown" :=
  ⟨classify_volatility_short_history 3 [] 25 75 (by decide),
   classify_volatility_short_history 3 [1] 10 90 (by decide)⟩


/-! ## Claim theorems: trade context recorder -/

/-- C1 (amended): `log_exit` returns `false` and leaves the store
unchanged exactly when no row at all — open or closed — carries the
trade id; when rows with the id exist but all are closed, the lookup
(which does not filter on openness) still succeeds, so the call returns
`true`, yet the conditional `UPDATE ... AND exit_time IS NULL` matches
nothing and the store is unchanged. -/
theorem log_exit_without_matching_row (s : ATS.DBState) (tid : ATS.PyVal)
    (et : String) (xp : ℚ) (xr : String) (ind : ATS.IndSnapshot)
    (rg : ATS.RegimeDict) (ep dur : ℚ) :
    ((∀ r ∈ s.records, r.trade_id ≠ ATS.pyStr tid) →
      ATS.log_exit s tid et xp xr ind rg ep dur = (false, s)) ∧
    ((∃ r ∈ s.records, r.trade_id = ATS.pyStr tid) →
      (∀ r ∈ s.records, r.trade_id = ATS.pyStr tid → r.exitInfo ≠ none) →
      (ATS.log_exit s tid et xp xr ind rg ep dur).1 = true ∧
      (ATS.log_exit s tid et xp xr ind rg ep dur).2 = s) := by
  constructor
  · intro h
    apply ATS.log_exit_none_case
    rw [List.filter_eq_nil_iff]
    intro r hr
    simpa using h r hr
  · intro hex hclosed
    have hne : s.records.filter
        (fun r => r.trade_id = ATS.pyStr tid) ≠ [] := by
      obtain ⟨r, hr, htid⟩ := hex
      intro hnil
      have hmem : r ∈ s.records.filter
          (fun r => r.trade_id = ATS.pyStr tid) := by
        simp [List.mem_filter, hr, htid]
      rw [hnil] at hmem
      exact absurd hmem (List.not_mem_nil r)
    obtain ⟨row, hrow, -, -⟩ := ATS.selectLatest_spec _ hne
    rw [ATS.log_exit_some_case s tid et xp xr ind rg ep dur row hrow]
    refine ⟨rfl, ?_⟩
    have hmap : ∀ r ∈ s.records, (if r.trade_id = ATS.pyStr tid ∧
        r.exitInfo = none
        then { r with exitInfo := some (ATS.mkExitInfo et xp xr ind rg ep dur
          (decide (row.entry_regime ≠ rg.combined))) }
        else r) = r := by
      intro r hr
      rw [if_neg]
      rintro ⟨h1, h2⟩
      exact hclosed r hr h1 h2
    show ({ s with records := _ } : ATS.DBState) = s
    rw [List.map_congr_left hmap]
    simp

/-- C1 counterexample: a store whose only row for trade id "9" is
closed has no open record for "9", yet `log_exit` on "9" returns
`True` — the claim as stated (return `false` whenever no open record
exists) is false on this store. -/
theorem log_exit_no_open_record_cex :
    (∀ r ∈ ATS.cexClosedOnly.records,
      ¬(r.trade_id = ATS.pyStr (.pstr "9") ∧ r.exitInfo = none)) ∧
    (ATS.log_exit ATS.cexClosedOnly (.pstr "9") "t3" 99 "roi" ATS.ind0
      ATS.rgA 100 60).1 = true := by
  decide

/-- Witness for C1: on the empty store `log_exit` returns
`(false, unchanged)`; on the closed-only store it returns `true` but
changes nothing. -/
theorem log_exit_without_matching_row_witness :
    ATS.log_exit ATS.dbInit (.pstr "x") "t" 1 "roi" ATS.ind0 ATS.rgA 1 0 =
      (false, ATS.dbInit) ∧
    (ATS.log_exit ATS.cexClosedOnly (.pstr "9") "t3" 99 "roi" ATS.ind0
      ATS.rgA 100 60).2 = ATS.cexClosedOnly :=
  ⟨(log_exit_without_matching_row ATS.dbInit (.pstr "x") "t" 1 "roi"
      ATS.ind0 ATS.rgA 1 0).1 (by decide),
   ((log_exit_without_matching_row ATS.cexClosedOnly (.pstr "9") "t3" 99
      "roi" ATS.ind0 ATS.rgA 100 60).2 (by decide) (by decide)).2⟩

/-- C3 (amended): when at least one open record with the trade id
exists, `log_exit` returns `true` and sets the exit fields of every
open record with that id (the `UPDATE` has no `LIMIT 1`, so several
open records with one id are all updated); `regime_changed` is computed
against the entry regime of the most recently inserted record with
that id, open or closed (the `SELECT` does not filter on openness);
records that are closed or carry a different id, and the snapshot
table, are unchanged. -/
theorem log_exit_with_open_records (s : ATS.DBState) (tid : ATS.PyVal)
    (et : String) (xp : ℚ) (xr : String) (ind : ATS.IndSnapshot)
    (rg : ATS.RegimeDict) (ep dur : ℚ)
    (hopen : ∃ r ∈ s.records,
      r.trade_id = ATS.pyStr tid ∧ r.exitInfo = none) :
    ∃ row ∈ s.records, row.trade_id = ATS.pyStr tid ∧
      (∀ b ∈ s.records, b.trade_id = ATS.pyStr tid → b.id ≤ row.id) ∧
      (ATS.log_exit s tid et xp xr ind rg ep dur).1 = true ∧
      (ATS.log_exit s tid et xp xr ind rg ep dur).2.records =
        s.records.map (fun r =>
          if r.trade_id = ATS.pyStr tid ∧ r.exitInfo = none
          then { r with exitInfo := some (ATS.mkExitInfo et xp xr ind rg
            ep dur (decide (row.entry_regime ≠ rg.combined))) }
          else r) ∧
      (ATS.log_exit s tid et xp xr ind rg ep dur).2.snapshots =
        s.snapshots := by
  have hne : s.records.filter
      (fun r => r.trade_id = ATS.pyStr tid) ≠ [] := by
    obtain ⟨r, hr, htid, -⟩ := hopen
    intro hnil
    have hmem : r ∈ s.records.filter
        (fun r => r.trade_id = ATS.pyStr tid) := by
      simp [List.mem_filter, hr, htid]
    rw [hnil] at hmem
    exact absurd hmem (List.not_mem_nil r)
  obtain ⟨row, hrow, hmem, hmax⟩ := ATS.selectLatest_spec _ hne
  have hmem2 := List.mem_filter.mp hmem
  refine ⟨row, hmem2.1, by simpa using hmem2.2, ?_, ?_, ?_, ?_⟩
  · intro b hb htid
    exact hmax b (List.mem_filter.mpr ⟨hb, by simpa using htid⟩)
  · rw [ATS.log_exit_some_case s tid et xp xr ind rg ep dur row hrow]
  · rw [ATS.log_exit_some_case s tid et xp xr ind rg ep dur row hrow]
  · rw [ATS.log_exit_some_case s tid et xp xr ind rg ep dur row hrow]

/-- C3 counterexample: on a store with two open records for trade id
"7" and no closed record, one `log_exit` call sets the exit fields of
both records — the claim that exactly one record (the latest open one)
is updated and every other record is unchanged is false on this
store. -/
theorem log_exit_single_update_cex :
    ATS.cexTwoOpen.records.length = 2 ∧
    ATS.cexTwoOpen.records.countP (fun r => r.exitInfo.isSome) = 0 ∧
    ((ATS.log_exit ATS.cexTwoOpen (.pstr "7") "t3" 105 "roi" ATS.ind0
      ATS.rgA 100 60).2.records.countP (fun r => r.exitInfo.isSome)) = 2 := by
  decide

/-- Witness for C3: on a store with a single open record for trade id
"1", `log_exit` returns `true`. -/
theorem log_exit_with_open_records_witness :
    (ATS.log_exit ATS.demoOneOpen (.pstr "1") "t2" 105 "roi" ATS.ind0
      ATS.rgA 100 60).1 = true := by
  obtain ⟨row, -, -, -, h1, -⟩ := log_exit_with_open_records
    ATS.demoOneOpen (.pstr "1") "t2" 105 "roi" ATS.ind0 ATS.rgA 100 60
    (by decide)
  exact h1

/-- The per-row update of the `log_exit` `UPDATE` keeps the entry
columns and never overwrites exit columns that are already set. -/
theorem exitUpdate_preserves (r : ATS.TradeRecord) (e : ATS.ExitInfo)
    (tid : String) :
    ATS.entryView (if r.trade_id = tid ∧ r.exitInfo = none
      then { r with exitInfo := some e } else r) = ATS.entryView r ∧
    ∀ e0, r.exitInfo = some e0 →
      (if r.trade_id = tid ∧ r.exitInfo = none
        then { r with exitInfo := some e } else r).exitInfo = some e0 := by
  constructor
  · by_cases hc : r.trade_id = tid ∧ r.exitInfo = none
    · rw [if_pos hc]
      rfl
    · rw [if_neg hc]
  · intro e0 he
    rw [if_neg]
    · exact he
    · rintro ⟨-, h2⟩
      rw [he] at h2
      exact Option.noConfusion h2

/-- One recorder call never rewrites the entry columns of an existing
row and never overwrites exit columns that are already set. -/
theorem applyOp_preserves (s : ATS.DBState) (op : ATS.LogOp) (i : ℕ)
    (hi : i < s.records.length) :
    ∃ hi2 : i < (ATS.applyOp s op).records.length,
      ATS.entryView ((ATS.applyOp s op).records.get ⟨i, hi2⟩) =
        ATS.entryView (s.records.get ⟨i, hi⟩) ∧
      ∀ e, (s.records.get ⟨i, hi⟩).exitInfo = some e →
        ((ATS.applyOp s op).records.get ⟨i, hi2⟩).exitInfo = some e := by
  cases op with
  | entry tid p st et ep ind rg =>
    have hl : (ATS.applyOp s (.entry tid p st et ep ind rg)).records =
        s.records ++ [_] := rfl
    have hi2 : i <
        (ATS.applyOp s (.entry tid p st et ep ind rg)).records.length := by
      rw [hl, List.length_append]
      omega
    have hsame : (ATS.applyOp s (.entry tid p st et ep ind rg)).records.get
        ⟨i, hi2⟩ = s.records.get ⟨i, hi⟩ := by
      simp only [List.get_eq_getElem, hl]
      exact List.getElem_append_left hi
    exact ⟨hi2, by rw [hsame], fun e he => by rw [hsame]; exact he⟩
  | close tid et xp xr ind rg ep dur =>
    cases hsel : ATS.selectLatest (s.records.filter
        (fun r => r.trade_id = ATS.pyStr tid)) with
    | none =>
      have hfil := (ATS.selectLatest_nil_iff _).mp hsel
      have hs : ATS.applyOp s (.close tid et xp xr ind rg ep dur) = s := by
        show (ATS.log_exit s tid et xp xr ind rg ep dur).2 = s
        rw [ATS.log_exit_none_case s tid et xp xr ind rg ep dur hfil]
      rw [hs]
      exact ⟨hi, rfl, fun e he => he⟩
    | some row =>
      have hs : (ATS.applyOp s (.close tid et xp xr ind rg ep dur)).records =
          s.records.map (fun r =>
            if r.trade_id = ATS.pyStr tid ∧ r.exitInfo = none
            then { r with exitInfo := some (ATS.mkExitInfo et xp xr ind rg
              ep dur (decide (row.entry_regime ≠ rg.combined))) }
            else r) := by
        show (ATS.log_exit s tid et xp xr ind rg ep dur).2.records = _
        rw [ATS.log_exit_some_case s tid et xp xr ind rg ep dur row hsel]
      have hi2 : i <
          (ATS.applyOp s (.close tid et xp xr ind rg ep dur)).records.length := by
        rw [hs, List.length_map]
        exact hi
      have hget : (ATS.applyOp s
          (.close tid et xp xr ind rg ep dur)).records.get ⟨i, hi2⟩ =
          (if (s.records.get ⟨i, hi⟩).trade_id = ATS.pyStr tid ∧
              (s.records.get ⟨i, hi⟩).exitInfo = none
           then { s.records.get ⟨i, hi⟩ with
                  exitInfo := some (ATS.mkExitInfo et xp xr ind rg ep dur
                    (decide (row.entry_regime ≠ rg.combined))) }
           else s.records.get ⟨i, hi⟩) := by
        simp only [List.get_eq_getElem, hs, List.getElem_map]
      refine ⟨hi2, ?_, ?_⟩
      · rw [hget]
        exact (exitUpdate_preserves _ _ _).1
      · intro e0 he
        rw [hget]
        exact (exitUpdate_preserves _ _ _).2 e0 he
  | snap p t rg ind =>
    exact ⟨hi, rfl, fun e he => he⟩

/-- C4: for every sequence of recorder operations, the entry columns of
every existing row (identity, pair, strategy, entry time and price, the
entry indicator vector, the entry regime triple) are never changed by
any later `log_entry`, `log_exit` or `log_regime_snapshot`, and exit
columns, once set, are never overwritten (the `UPDATE` of `log_exit`
requires `exit_time IS NULL`); moreover each `log_entry` appends a row
holding exactly its arguments with all exit columns `NULL` — so entry
fields are set exactly once, at creation, and exit fields are written
only by `log_exit` and only on a record whose exit fields are unset. -/
theorem trade_record_write_once (ops : List ATS.LogOp) (s : ATS.DBState)
    (i : ℕ) (hi : i < s.records.length) :
    (∃ hi2 : i < (ATS.applyOps s ops).records.length,
      ATS.entryView ((ATS.applyOps s ops).records.get ⟨i, hi2⟩) =
        ATS.entryView (s.records.get ⟨i, hi⟩) ∧
      ∀ e, (s.records.get ⟨i, hi⟩).exitInfo = some e →
        ((ATS.applyOps s ops).records.get ⟨i, hi2⟩).exitInfo = some e) ∧
    (∀ tid p st et2 ep2 ind2 rg2,
      (ATS.log_entry s tid p st et2 ep2 ind2 rg2).2.records.getLast? =
        some { id := s.nextId, trade_id := ATS.pyStr tid, pair := p,
               strategy := st, entry_time := et2, entry_price := ep2,
               entry_indicators := ind2,
               entry_volatility_regime := rg2.volatility,
               entry_trend_regime := rg2.trend,
               entry_regime := rg2.combined, exitInfo := none }) := by
  constructor
  · induction ops generalizing s i with
    | nil => exact ⟨hi, rfl, fun e he => he⟩
    | cons op rest ih =>
      obtain ⟨hi2, h1, h2⟩ := applyOp_preserves s op i hi
      obtain ⟨hi3, h3, h4⟩ := ih (ATS.applyOp s op) i hi2
      exact ⟨hi3, h3.trans h1, fun e he => h4 e (h2 e he)⟩
  · intro tid p st et2 ep2 ind2 rg2
    show (s.records ++ [_]).getLast? = _
    rw [List.getLast?_append]
    rfl

/-- Witness for C4: re-closing the already-closed record of
`cexClosedOnly` leaves its entry view unchanged. -/
theorem trade_record_write_once_witness :
    ATS.entryView ((ATS.applyOps ATS.cexClosedOnly
      [ATS.LogOp.close (.pstr "9") "t9" 50 "stoploss" ATS.ind0 ATS.rgB
        100 5]).records.get ⟨0, by decide⟩) =
      ATS.entryView (ATS.cexClosedOnly.records.get ⟨0, by decide⟩) := by
  obtain ⟨hi2, h1, -⟩ := (trade_record_write_once
    [ATS.LogOp.close (.pstr "9") "t9" 50 "stoploss" ATS.ind0 ATS.rgB 100 5]
    ATS.cexClosedOnly 0 (by decide)).1
  exact h1

/-- The single open record of `demoOneOpen`. -/
def demoOpenRec : ATS.TradeRecord :=
  { id := 1, trade_id := "1", pair := "BTC/USDT", strategy := "strat",
    entry_time := "t1", entry_price := 100, entry_indicators := ATS.ind0,
    entry_volatility_regime := some "low",
    entry_trend_regime := some "ranging",
    entry_regime := some "low_ranging", exitInfo := none }

/-- The concrete closed record produced by entering trade "1" at price
100 and exiting at 105 (used by the C9 witness). -/
def demoClosed100 : ATS.TradeRecord :=
  { demoOpenRec with
    exitInfo := some (ATS.mkExitInfo "t2" 105 "roi" ATS.ind0 ATS.rgA
      100 60 false) }

/-- C9: every record that a `log_exit` call modifies receives
`pnl_absolute = exit_price − entry_price` and
`pnl_percent = pnl_absolute / entry_price × 100`, with
`pnl_percent = 0` when `entry_price` is zero (the Python conditional
`... if entry_price else 0`); the witness instantiates this at entry
100.0 / exit 105.0, giving exactly 5.0 and 5.0. -/
theorem log_exit_pnl_fields (s : ATS.DBState) (tid : ATS.PyVal)
    (et : String) (xp : ℚ) (xr : String) (ind : ATS.IndSnapshot)
    (rg : ATS.RegimeDict) (ep dur : ℚ) :
    ∀ r2 ∈ (ATS.log_exit s tid et xp xr ind rg ep dur).2.records,
      r2 ∉ s.records →
      ∃ e, r2.exitInfo = some e ∧ e.pnl_absolute = xp - ep ∧
        e.pnl_percent = if ep = 0 then 0 else (xp - ep) / ep * 100 := by
  intro r2 hmem hnot
  cases hsel : ATS.selectLatest (s.records.filter
      (fun r => r.trade_id = ATS.pyStr tid)) with
  | none =>
    have hfil := (ATS.selectLatest_nil_iff _).mp hsel
    rw [ATS.log_exit_none_case s tid et xp xr ind rg ep dur hfil] at hmem
    exact absurd hmem hnot
  | some row =>
    rw [ATS.log_exit_some_case s tid et xp xr ind rg ep dur row hsel]
      at hmem
    obtain ⟨r, hr, hfr⟩ := List.mem_map.mp hmem
    by_cases hc : r.trade_id = ATS.pyStr tid ∧ r.exitInfo = none
    · rw [if_pos hc] at hfr
      refine ⟨ATS.mkExitInfo et xp xr ind rg ep dur
        (decide (row.entry_regime ≠ rg.combined)), ?_, rfl, ?_⟩
      · rw [← hfr]
      · show (if ep ≠ 0 then (xp - ep) / ep * 100 else 0) = _
        by_cases hz : ep = 0
        · rw [if_neg (by simpa using hz), if_pos hz]
        · rw [if_pos hz, if_neg hz]
    · rw [if_neg hc] at hfr
      rw [← hfr] at hnot
      exact absurd hr hnot

/-- Witness for C9: the round trip entry 100.0, exit 105.0 stores
`pnl_absolute = 5.0` and `pnl_percent = 5.0` exactly. -/
theorem log_exit_pnl_fields_witness :
    ∃ e, demoClosed100.exitInfo = some e ∧ e.pnl_absolute = 5 ∧
      e.pnl_percent = 5 := by
  have hlist : (ATS.log_exit ATS.demoOneOpen (.pstr "1") "t2" 105 "roi"
      ATS.ind0 ATS.rgA 100 60).2.records = [demoClosed100] := by
    decide
  have hlist0 : ATS.demoOneOpen.records = [demoOpenRec] := by
    decide
  have hmem : demoClosed100 ∈ (ATS.log_exit ATS.demoOneOpen (.pstr "1")
      "t2" 105 "roi" ATS.ind0 ATS.rgA 100 60).2.records := by
    rw [hlist]
    exact List.mem_singleton.mpr rfl
  have hnot : demoClosed100 ∉ ATS.demoOneOpen.records := by
    rw [hlist0]
    intro hmem2
    have heq := List.mem_singleton.mp hmem2
    exact absurd heq (by decide)
  obtain ⟨e, he, h1, h2⟩ := log_exit_pnl_fields ATS.demoOneOpen (.pstr "1")
    "t2" 105 "roi" ATS.ind0 ATS.rgA 100 60 demoClosed100 hmem hnot
  refine ⟨e, he, ?_, ?_⟩
  · rw [h1]
    norm_num
  · rw [h2]
    norm_num

/-- C10: trade identifiers are matched by string representation —
`log_entry` stores `str(trade_id)` and `log_exit` looks up
`str(trade_id)`, so an entry logged under any value `v` can be closed
by a `log_exit` whose argument has the same string representation. -/
theorem trade_id_matched_by_str (s : ATS.DBState) (v w : ATS.PyVal)
    (pair strat et1 : String) (ep1 : ℚ) (ind1 : ATS.IndSnapshot)
    (rg1 : ATS.RegimeDict) (et2 : String) (xp : ℚ) (xr : String)
    (ind2 : ATS.IndSnapshot) (rg2 : ATS.RegimeDict) (ep2 dur : ℚ)
    (h : ATS.pyStr v = ATS.pyStr w) :
    (ATS.log_exit (ATS.log_entry s v pair strat et1 ep1 ind1 rg1).2 w
      et2 xp xr ind2 rg2 ep2 dur).1 = true := by
  set s1 := (ATS.log_entry s v pair strat et1 ep1 ind1 rg1).2 with hs1
  have hne : s1.records.filter
      (fun r => r.trade_id = ATS.pyStr w) ≠ [] := by
    intro hnil
    have hmem : ({ id := s.nextId, trade_id := ATS.pyStr v, pair := pair,
                   strategy := strat, entry_time := et1,
                   entry_price := ep1, entry_indicators := ind1,
                   entry_volatility_regime := rg1.volatility,
                   entry_trend_regime := rg1.trend,
                   entry_regime := rg1.combined,
                   exitInfo := none } : ATS.TradeRecord) ∈
        s1.records.filter (fun r => r.trade_id = ATS.pyStr w) := by
      rw [List.mem_filter]
      constructor
      · show _ ∈ s.records ++ [_]
        simp
      · simpa using h
    rw [hnil] at hmem
    exact absurd hmem (List.not_mem_nil _)
  obtain ⟨row, hrow, -, -⟩ := ATS.selectLatest_spec _ hne
  rw [ATS.log_exit_some_case s1 w et2 xp xr ind2 rg2 ep2 dur row hrow]

/-- Witness for C10: an entry logged with the integer 7 is closed by a
`log_exit` called with the string "7". -/
theorem trade_id_matched_by_str_witness :
    (ATS.log_exit (ATS.log_entry ATS.dbInit (.pint 7) "BTC/USDT" "strat"
      "t1" 100 ATS.ind0 ATS.rgA).2 (.pstr "7") "t2" 105 "roi" ATS.ind0
      ATS.rgA 100 60).1 = true :=
  trade_id_matched_by_str ATS.dbInit (.pint 7) (.pstr "7") "BTC/USDT"
    "strat" "t1" 100 ATS.ind0 ATS.rgA "t2" 105 "roi" ATS.ind0 ATS.rgA
    100 60 (by decide)

/-! ## Claim theorems: performance analyzer -/

/-- The rows of `detect_decay` are exactly the closed trades of the
strategy: sorting keeps the length, and projecting to `pnl_percent`
drops nothing because every selected row is closed. -/
theorem closedPnls_length (s : ATS.DBState) (strat : String) :
    (ATS.closedPnlsByExitDesc s strat).length =
      (s.records.filter
        (fun r => r.strategy = strat ∧ r.exitInfo.isSome)).length := by
  show (ATS.rowPnls _).length = _
  rw [ATS.rowPnls, ATS.length_filterMap_of_isSome, List.length_mergeSort]
  intro r hr
  have hr2 := List.mem_mergeSort.mp hr
  have hr3 := (List.mem_filter.mp hr2).2
  simp only [decide_eq_true_eq] at hr3
  obtain ⟨e, he⟩ := Option.isSome_iff_exists.mp hr3.2
  rw [he]
  rfl

/-- C2 (amended): with positive windows, `detect_decay` reports
`has_enough_data = false` exactly when the closed-trade count for the
strategy is at most `recent_window` (fewer than `recent_window`, or
exactly `recent_window` so the baseline slice is empty); the
insufficient report carries the closed-trade count and
`needed = recent_window + baseline_window`. When the count lies
strictly between `recent_window` and `recent_window + baseline_window`
the call does NOT stop: it evaluates decay against a truncated
baseline. -/
theorem detect_decay_data_guard (s : ATS.DBState) (strat : String)
    (rw1 bw cnt : ℕ)
    (hcnt : cnt = (s.records.filter
      (fun r => r.strategy = strat ∧ r.exitInfo.isSome)).length)
    (h1 : 0 < rw1) (h2 : 0 < bw) :
    ((ATS.detect_decay s strat rw1 bw).has_enough_data = false ↔
      cnt ≤ rw1) ∧
    (cnt < rw1 → ATS.detect_decay s strat rw1 bw =
      .insufficient cnt (rw1 + bw) (ATS.msgNeedAnalysis rw1)) ∧
    (cnt = rw1 → ATS.detect_decay s strat rw1 bw =
      .insufficient cnt (rw1 + bw) (ATS.msgNeedComparison (rw1 + bw))) := by
  have hlen : (ATS.closedPnlsByExitDesc s strat).length = cnt := by
    rw [hcnt, closedPnls_length]
  have hbase : ((ATS.closedPnlsByExitDesc s strat).drop rw1).take bw =
      [] ↔ cnt ≤ rw1 := by
    rw [List.take_eq_nil_iff, List.drop_eq_nil_iff, hlen]
    constructor
    · rintro (h | h)
      · omega
      · exact h
    · intro h
      exact Or.inr h
  by_cases hlt : cnt < rw1
  · have hred : ATS.detect_decay s strat rw1 bw =
        .insufficient cnt (rw1 + bw) (ATS.msgNeedAnalysis rw1) := by
      simp only [ATS.detect_decay]
      rw [hlen, if_pos hlt]
    refine ⟨?_, fun _ => hred, fun heq => absurd heq (by omega)⟩
    rw [hred]
    exact iff_of_true rfl (le_of_lt hlt)
  · by_cases heq : cnt = rw1
    · have hred : ATS.detect_decay s strat rw1 bw =
          .insufficient cnt (rw1 + bw) (ATS.msgNeedComparison (rw1 + bw)) := by
        simp only [ATS.detect_decay]
        rw [hlen, if_neg hlt, if_pos (hbase.mpr (le_of_eq heq))]
      refine ⟨?_, fun h => absurd h (by omega), fun _ => hred⟩
      rw [hred]
      exact iff_of_true rfl (le_of_eq heq)
    · have hgt : rw1 < cnt := by omega
      have hred : (ATS.detect_decay s strat rw1 bw).has_enough_data =
          true := by
        simp only [ATS.detect_decay]
        rw [hlen, if_neg hlt, if_neg (by rw [hbase]; omega)]
        rfl
      refine ⟨?_, fun h => absurd h (by omega),
        fun h => absurd h (by omega)⟩
      rw [hred]
      exact iff_of_false (by simp) (by omega)

/-- C2 counterexample: a store with exactly 2 closed trades of the
strategy, with `recent_window = 1` and `baseline_window = 2`: the
count 2 is smaller than `recent_window + baseline_window = 3`, yet
`detect_decay` proceeds (`has_enough_data = true`) with a truncated
baseline — the claim as stated is false on this store. -/
theorem detect_decay_window_cex :
    (ATS.cexTwoClosed.records.filter
      (fun r => r.strategy = "strat" ∧ r.exitInfo.isSome)).length = 2 ∧
    (2 : ℕ) < 1 + 2 ∧
    (ATS.detect_decay ATS.cexTwoClosed "strat" 1 2).has_enough_data =
      true := by
  refine ⟨by decide, by decide, ?_⟩
  decide

/-- Witness for C2: on the empty store with windows 1 and 1 the report
is the first insufficient-data shape with count 0 and needed 2. -/
theorem detect_decay_data_guard_witness :
    (ATS.detect_decay ATS.dbInit "strat" 1 1).has_enough_data = false ∧
    ATS.detect_decay ATS.dbInit "strat" 1 1 =
      .insufficient 0 2 (ATS.msgNeedAnalysis 1) := by
  have h := detect_decay_data_guard ATS.dbInit "strat" 1 1 0 (by decide)
    (by decide) (by decide)
  exact ⟨h.1.mpr (by decide), h.2.1 (by decide)⟩

/-- Every row selected by `summary` is closed. -/
theorem summaryRows_closed (s : ATS.DBState) (strat rg : Option String) :
    ∀ r ∈ ATS.summaryRows s strat rg, r.exitInfo.isSome := by
  intro r hr
  have h := (List.mem_filter.mp hr).2
  simp only [Bool.and_eq_true] at h
  exact h.1.1

/-- The `pnl_percent` projection drops no selected row. -/
theorem rowPnls_length_of_closed (rows : List ATS.TradeRecord)
    (h : ∀ r ∈ rows, r.exitInfo.isSome) :
    (ATS.rowPnls rows).length = rows.length := by
  rw [ATS.rowPnls, ATS.length_filterMap_of_isSome]
  intro r hr
  obtain ⟨e, he⟩ := Option.isSome_iff_exists.mp (h r hr)
  rw [he]
  rfl

/-- Equation for the `total_trades` field of `summary`. -/
theorem summary_total_trades (s : ATS.DBState) (strat rg : Option String) :
    (ATS.summary s strat rg).total_trades =
      (ATS.summaryRows s strat rg).length := by
  simp only [ATS.summary]
  by_cases h : ATS.summaryRows s strat rg = []
  · rw [if_pos h, h]
    rfl
  · rw [if_neg h]
    exact rowPnls_length_of_closed _ (summaryRows_closed s strat rg)

/-- Equation for the `profit_factor` field of `summary`. -/
theorem summary_profit_factor (s : ATS.DBState) (strat rg : Option String) :
    (ATS.summary s strat rg).profit_factor =
      (if ATS.summaryRows s strat rg = [] then ATS.PFloat.val 0
       else ATS.pfRound4 (ATS.profitFactorOf
         ((ATS.rowPnls (ATS.summaryRows s strat rg)).filter
           (fun p => 0 < p)).sum
         |((ATS.rowPnls (ATS.summaryRows s strat rg)).filter
           (fun p => p ≤ 0)).sum|)) := by
  simp only [ATS.summary]
  by_cases h : ATS.summaryRows s strat rg = []
  · rw [if_pos h, if_pos h]
  · rw [if_neg h, if_neg h]

/-- C5 (amended): let `w` be the sum of winning `pnl_percent` values
and `l` the absolute value of the sum of losing values over the
selected closed trades. The returned `profit_factor` is the ratio
`w / l` rounded to 4 decimal places whenever `l > 0`; it is `+infinity`
exactly when some trade was selected, `w > 0` and `l = 0` — which can
happen with losing trades present, since a zero-P&L trade counts as a
loss but contributes 0 to `l`; and it is `0` whenever `w = 0` (no
winning trade), even if losing trades are present. -/
theorem profit_factor_characterization (s : ATS.DBState)
    (strat rg : Option String) (w l : ℚ)
    (hw : w = ((ATS.rowPnls (ATS.summaryRows s strat rg)).filter
      (fun p => 0 < p)).sum)
    (hl : l = |((ATS.rowPnls (ATS.summaryRows s strat rg)).filter
      (fun p => p ≤ 0)).sum|) :
    ((ATS.summary s strat rg).profit_factor = ATS.PFloat.inf ↔
      (ATS.summaryRows s strat rg ≠ [] ∧ 0 < w ∧ l = 0)) ∧
    (ATS.summaryRows s strat rg ≠ [] → 0 < l →
      (ATS.summary s strat rg).profit_factor =
        ATS.PFloat.val (ATS.pyRound (w / l) 4)) ∧
    (w = 0 → (ATS.summary s strat rg).profit_factor = ATS.PFloat.val 0) := by
  have hpf := summary_profit_factor s strat rg
  have hwnn : 0 ≤ w := by
    rw [hw]
    apply List.sum_nonneg
    intro x hx
    have hx2 := (List.mem_filter.mp hx).2
    simp only [decide_eq_true_eq] at hx2
    exact le_of_lt hx2
  by_cases hrows : ATS.summaryRows s strat rg = []
  · rw [if_pos hrows] at hpf
    refine ⟨?_, fun hne => absurd hrows hne, fun _ => hpf⟩
    rw [hpf]
    exact iff_of_false (by simp) (by tauto)
  · rw [if_neg hrows, ← hw, ← hl] at hpf
    by_cases hlpos : 0 < l
    · rw [ATS.profitFactorOf, if_pos hlpos] at hpf
      refine ⟨?_, fun _ _ => hpf, ?_⟩
      · rw [hpf]
        refine iff_of_false (by simp [ATS.pfRound4]) ?_
        rintro ⟨-, -, h0⟩
        rw [h0] at hlpos
        exact lt_irrefl 0 hlpos
      · intro hw0
        rw [hpf, hw0, zero_div]
        decide
    · have hl0 : l = 0 := by
        have hnn : 0 ≤ l := by
          rw [hl]
          exact abs_nonneg _
        exact le_antisymm (not_lt.mp hlpos) hnn
      by_cases hwpos : 0 < w
      · rw [ATS.profitFactorOf, if_neg hlpos, if_pos hwpos] at hpf
        refine ⟨iff_of_true (by rw [hpf]; rfl) ⟨hrows, hwpos, hl0⟩,
          fun _ hc => absurd hc hlpos, fun hw0 => ?_⟩
        rw [hw0] at hwpos
        exact absurd hwpos (lt_irrefl 0)
      · have hw0 : w = 0 := le_antisymm (not_lt.mp hwpos) hwnn
        rw [ATS.profitFactorOf, if_neg hlpos, if_neg hwpos] at hpf
        have hr4 : ATS.pfRound4 (ATS.PFloat.val 0) = ATS.PFloat.val 0 := by
          decide
        rw [hr4] at hpf
        refine ⟨?_, fun _ hc => absurd hc hlpos, fun _ => hpf⟩
        rw [hpf]
        refine iff_of_false (by simp) ?_
        rintro ⟨-, hwp, -⟩
        exact absurd hwp hwpos

/-- C5 counterexample: a store with one +5% trade and one 0% trade.
The 0% trade is a losing trade (`pnl ≤ 0`), so losing trades exist,
yet the sum of losses is 0 and `profit_factor` is `+infinity` — the
claim that `+infinity` occurs exactly when there are no losing trades
is false on this store. -/
theorem profit_factor_inf_cex :
    (ATS.summary ATS.cexWinZero none none).losses = 1 ∧
    (ATS.summary ATS.cexWinZero none none).profit_factor =
      ATS.PFloat.inf := by
  constructor
  · decide
  · decide

/-- Witness for C5: on the four-trade store with P&L +4, +2, +1, −5 the
profit factor is `round((4+2+1)/|−5|, 4) = 1.4`. -/
theorem profit_factor_characterization_witness :
    (ATS.summary ATS.demoFour none none).profit_factor =
      ATS.PFloat.val (ATS.pyRound (7 / 5) 4) ∧
    ATS.pyRound ((7 : ℚ) / 5) 4 = 7 / 5 := by
  have h := profit_factor_characterization ATS.demoFour none none 7 5
    (by decide) (by decide)
  exact ⟨h.2.1 (by decide) (by decide), by decide⟩
/-- Counting a key among the non-null regimes equals filtering on that
regime. -/
theorem count_filterMap_regime (l : List ATS.TradeRecord) (k : String) :
    ((l.filterMap (fun r => r.entry_regime)).count k) =
      (l.filter (fun r => r.entry_regime == some k)).length := by
  induction l with
  | nil => rfl
  | cons r rest ih =>
    cases hr : r.entry_regime with
    | none =>
      rw [List.filterMap_cons, hr, List.filter_cons]
      simp only [hr]
      rw [if_neg (by simp)]
      exact ih
    | some a =>
      rw [List.filterMap_cons, hr, List.filter_cons]
      simp only [hr]
      by_cases hak : a = k
      · subst hak
        rw [if_pos (by simp)]
        simp only [List.count_cons, ih]
        simp
      · rw [if_neg (by simp [hak])]
        rw [List.count_cons, ih]
        simp [hak]

/-- C6 (amended): `by_regime` buckets only the closed trades whose
entry regime is non-null; a closed trade with a `NULL` entry regime
appears in no bucket. Provided every closed trade carries a non-null,
non-empty entry regime label, the buckets are keyed by distinct labels,
each bucket counts exactly the closed trades with that label (so every
closed trade lands in exactly one bucket), and the bucket totals sum to
the unfiltered total. -/
theorem by_regime_partition (s : ATS.DBState)
    (h : ∀ r ∈ s.records, r.exitInfo.isSome = true →
      r.entry_regime ≠ none ∧ r.entry_regime ≠ some "") :
    (((ATS.by_regime s none).map Prod.fst).Nodup) ∧
    (∀ k sm, (k, sm) ∈ ATS.by_regime s none →
      sm.total_trades = (s.records.filter
        (fun r => r.exitInfo.isSome && r.entry_regime == some k)).length) ∧
    (((ATS.by_regime s none).map (fun p => p.2.total_trades)).sum =
      (ATS.summary s none none).total_trades) := by
  have hregsome : ∀ r ∈ s.records, r.exitInfo.isSome = true →
      r.entry_regime.isSome = true := by
    intro r hr hcl
    cases hrg : r.entry_regime with
    | none => exact absurd hrg (h r hr hcl).1
    | some a => rfl
  have hbr : ATS.by_regime s none =
      ((s.records.filter (fun r => r.exitInfo.isSome)).filterMap
        (fun r => r.entry_regime)).dedup.map
        (fun k => (k, ATS.summary s none (some k))) := by
    have h1 : s.records.filter
        (fun r => r.exitInfo.isSome && r.entry_regime.isSome &&
          (!ATS.pyTruthy none || r.strategy == (none : Option String).getD "")) =
        s.records.filter (fun r => r.exitInfo.isSome) := by
      apply List.filter_congr
      intro r hr
      cases hcl : r.exitInfo.isSome with
      | false => simp [hcl]
      | true => simp [hcl, hregsome r hr hcl, ATS.pyTruthy]
    simp only [ATS.by_regime]
    rw [h1]
  have hkeys_ne : ∀ k ∈ ((s.records.filter
      (fun r => r.exitInfo.isSome)).filterMap
        (fun r => r.entry_regime)).dedup, k ≠ "" := by
    intro k hk
    obtain ⟨r, hr, hrk⟩ := List.mem_filterMap.mp (List.mem_dedup.mp hk)
    have hrmem := (List.mem_filter.mp hr).1
    have hrcl := (List.mem_filter.mp hr).2
    intro hkk
    subst hkk
    exact (h r hrmem hrcl).2 hrk
  have hbucket : ∀ k, k ≠ "" →
      (ATS.summary s none (some k)).total_trades =
        (s.records.filter (fun r =>
          r.exitInfo.isSome && r.entry_regime == some k)).length := by
    intro k hk
    rw [summary_total_trades]
    congr 1
    rw [ATS.summaryRows]
    apply List.filter_congr
    intro r hr
    simp [ATS.pyTruthy, hk]
  have hcount : ∀ k,
      (s.records.filter (fun r =>
        r.exitInfo.isSome && r.entry_regime == some k)).length =
      ((s.records.filter (fun r => r.exitInfo.isSome)).filterMap
        (fun r => r.entry_regime)).count k := by
    intro k
    rw [count_filterMap_regime, List.filter_filter]
    congr 1
    apply List.filter_congr
    intro r hr
    exact Bool.and_comm _ _
  refine ⟨?_, ?_, ?_⟩
  · rw [hbr, List.map_map]
    have hid : (Prod.fst ∘ fun k : String =>
        (k, ATS.summary s none (some k))) = id := rfl
    rw [hid, List.map_id]
    exact List.nodup_dedup _
  · intro k sm hmem
    rw [hbr] at hmem
    obtain ⟨k0, hk0, heq⟩ := List.mem_map.mp hmem
    obtain ⟨hk1, hk2⟩ := Prod.mk.injEq .. |>.mp heq
    subst hk1
    rw [← hk2]
    exact hbucket k0 (hkeys_ne k0 hk0)
  · rw [hbr, List.map_map]
    have hmapeq : (((s.records.filter (fun r => r.exitInfo.isSome)).filterMap
        (fun r => r.entry_regime)).dedup.map
          ((fun p : String × ATS.Summary => p.2.total_trades) ∘
            (fun k => (k, ATS.summary s none (some k))))) =
        (((s.records.filter (fun r => r.exitInfo.isSome)).filterMap
          (fun r => r.entry_regime)).dedup.map
            (fun k => ((s.records.filter (fun r => r.exitInfo.isSome)).filterMap
              (fun r => r.entry_regime)).count k)) := by
      apply List.map_congr_left
      intro k hk
      show (ATS.summary s none (some k)).total_trades = _
      rw [hbucket k (hkeys_ne k hk), hcount k]
    rw [hmapeq, List.sum_map_count_dedup_eq_length]
    rw [summary_total_trades]
    have hrows0 : ATS.summaryRows s none none =
        s.records.filter (fun r => r.exitInfo.isSome) := by
      rw [ATS.summaryRows]
      apply List.filter_congr
      intro r hr
      simp [ATS.pyTruthy]
    rw [hrows0]
    exact ATS.length_filterMap_of_isSome _ _
      (fun r hr => hregsome r (List.mem_filter.mp hr).1
        (List.mem_filter.mp hr).2)

/-- C6 counterexample: a store with one closed trade whose entry regime
is `NULL`: `by_regime` has no bucket at all, so the bucket totals sum
to 0 while the unfiltered summary counts 1 closed trade — the claim
that every closed trade is counted in exactly one bucket and totals sum
to the unfiltered total is false on this store. -/
theorem by_regime_partition_cex :
    ((ATS.by_regime ATS.cexNullRegime none).map
      (fun p => p.2.total_trades)).sum = 0 ∧
    (ATS.summary ATS.cexNullRegime none none).total_trades = 1 :=
  ⟨by decide, by decide⟩

/-- Witness for C6: on the four-trade store (regimes `low_ranging` and
`high_strong_trend`, two closed trades each) the bucket totals sum to
the unfiltered total, 4. -/
theorem by_regime_partition_witness :
    ((ATS.by_regime ATS.demoFour none).map
      (fun p => p.2.total_trades)).sum =
      (ATS.summary ATS.demoFour none none).total_trades ∧
    (ATS.summary ATS.demoFour none none).total_trades = 4 := by
  have h := by_regime_partition ATS.demoFour (by decide)
  exact ⟨h.2.2, by decide⟩

end ClaimProofs
